import Mathlib

/-!
Shallow embedding of the TuiTunes core (`player.go`) in Lean 4.

Go strings are modelled as lists of characters; the Go standard-library
helpers the player uses (`strings.Split`, `strings.Contains`,
`strings.ToLower`, `filepath.Base`, `filepath.Ext`, `filepath.Dir`,
`filepath.Rel`) are given executable Lean counterparts restricted to the
cleaned, separator-normalised paths the scanner produces.  The beep audio
collaborators (`os.Open`, `mp3.Decode`, `wav.Decode`) are an explicit
environment of oracles, so every theorem quantifies over collaborator
behaviour.  Transport commands return the updated player, the Go error
value, and a ghost counter of how many times `loadTrack` ran (the counter
marks the call sites in the source; it never influences the state).
-/

/-- A Go string, as its sequence of characters. -/
abbrev GoStr := List Char

/-- Literal Go strings. -/
def gs (s : String) : GoStr := s.data

/-- Go `strings.ToLower`, on the ASCII range the repository exercises. -/
def toLowerStr (s : GoStr) : GoStr := s.map Char.toLower

/-- Go `strings.Contains s sub`: some suffix of `s` starts with `sub`. -/
def goContains : GoStr → GoStr → Bool
  | [], sub => sub.isEmpty
  | c :: rest, sub => sub.isPrefixOf (c :: rest) || goContains rest sub

/-- Go `strings.TrimSuffix`. -/
def trimSuffix (s suf : GoStr) : GoStr :=
  if suf.isSuffixOf s then s.take (s.length - suf.length) else s

/-- Go `filepath.Base`, restricted to cleaned paths with no trailing
separator. -/
def filepathBase (s : GoStr) : GoStr :=
  if s = [] then gs "."
  else (s.reverse.takeWhile (fun c => c != '/')).reverse

/-- Go `filepath.Ext`: the suffix of the final path element starting at its
last dot, or empty when the final element has no dot. -/
def filepathExt (s : GoStr) : GoStr :=
  let finalElem := s.reverse.takeWhile (fun c => c != '/')
  if '.' ∈ finalElem then '.' :: (finalElem.takeWhile (fun c => c != '.')).reverse
  else []

/-- Go `filepath.Dir`, restricted to cleaned paths: everything before the
last separator, or `.` when there is none. -/
def filepathDir (s : GoStr) : GoStr :=
  let parts := s.splitOn '/'
  if parts.length ≤ 1 then gs "."
  else List.intercalate (gs "/") parts.dropLast

/-- Go `filepath.Rel`, restricted to the shapes the scanner produces: the
target equals the base or lies below it.  Other inputs come back
unchanged. -/
def goRel (base targ : GoStr) : GoStr :=
  if targ = base then gs "."
  else if (base ++ gs "/").isPrefixOf targ then targ.drop (base.length + 1)
  else targ

/-- beep `SampleRate.D n`: samples to nanoseconds of `time.Duration`. -/
def sampleRateD (sr n : Nat) : Nat := n * 1000000000 / sr

/-- Track record from `player.go`; `Duration` is nanoseconds. -/
structure Track where
  Path : GoStr
  Title : GoStr
  Artist : GoStr
  Album : GoStr
  Duration : Nat
  Format : GoStr
deriving DecidableEq, Inhabited

/-- The `PlayerState` enumeration. -/
inductive PlayerState where
  | Stopped
  | Playing
  | Paused
deriving DecidableEq, Inhabited

/-- Snapshot of a beep `StreamSeeker`: its reported sample position and
total sample count. -/
structure StreamSeeker where
  position : Nat
  len : Nat
deriving DecidableEq, Inhabited

/-- beep `Format`; only the sample rate is read by the core. -/
structure BeepFormat where
  sampleRate : Nat
deriving DecidableEq, Inhabited

/-- beep `Ctrl`; the core only reads and writes its `Paused` flag (the
wrapped resampled streamer is handed to the speaker and never read
back). -/
structure Ctrl where
  paused : Bool
deriving DecidableEq, Inhabited

/-- The `Player` struct from `player.go`. -/
structure Player where
  MusicDir : GoStr
  Tracks : List Track
  CurrentTrack : Int
  State : PlayerState
  Repeat : Bool
  Shuffle : Bool
  SearchQuery : GoStr
  FilteredTracks : List Track
  Streamer : Option StreamSeeker
  Ctrl : Option Ctrl
  Format : BeepFormat
  LoadedTrack : Int
deriving DecidableEq, Inhabited

/-- Result of a transport command: the updated player, the Go error value
(`none` for a nil error), and a ghost count of `loadTrack` invocations. -/
structure StepResult where
  player : Player
  err : Option GoStr
  decodeCalls : Nat
deriving DecidableEq, Inhabited

/-- An opened file, identified by its path. -/
abbrev FileHandle := GoStr

/-- The external collaborators `loadTrack` consults: `os.Open`,
`mp3.Decode` and `wav.Decode`. -/
structure AudioEnv where
  osOpen : GoStr → Except GoStr FileHandle
  mp3Decode : FileHandle → Except GoStr (StreamSeeker × BeepFormat)
  wavDecode : FileHandle → Except GoStr (StreamSeeker × BeepFormat)

/-- `loadTrack` from `player.go`: open the file, then pick a decoder by
lower-cased extension, defaulting to the mp3 decoder. -/
def loadTrack (env : AudioEnv) (path : GoStr) : Except GoStr (StreamSeeker × BeepFormat) :=
  match env.osOpen path with
  | .error e => .error e
  | .ok file =>
    let ext := toLowerStr (filepathExt path)
    if ext = gs ".mp3" then env.mp3Decode file
    else if ext = gs ".wav" then env.wavDecode file
    else env.mp3Decode file

/-- `NewPlayer`: zero values for every field except the explicit
`Repeat`/`Shuffle` initialisers. -/
def NewPlayer (musicDir : GoStr) : Player :=
  { MusicDir := musicDir, Tracks := [], CurrentTrack := 0, State := .Stopped,
    Repeat := false, Shuffle := false, SearchQuery := [], FilteredTracks := [],
    Streamer := none, Ctrl := none, Format := { sampleRate := 0 }, LoadedTrack := 0 }

/-- The opening clamp of `Play`: an index at or past the end of the view is
reset to 0. -/
def clampIndex (p : Player) : Player :=
  if p.CurrentTrack ≥ (p.FilteredTracks.length : Int) then { p with CurrentTrack := 0 }
  else p

/-- `extractMetadata`: title from the file name, artist and album from the
directory segments of the path relative to the music directory. -/
def extractMetadata (musicDir : GoStr) (track : Track) : Track :=
  let baseName := filepathBase track.Path
  let ext := filepathExt baseName
  let track1 := { track with Title := trimSuffix baseName ext }
  let relPath := goRel musicDir track1.Path
  let parts := (filepathDir relPath).splitOn '/'
  if 2 ≤ parts.length then
    { track1 with Artist := parts.getD 0 [], Album := parts.getD 1 [] }
  else if parts.length = 1 ∧ parts.getD 0 [] ≠ gs "." then
    { track1 with Artist := parts.getD 0 [] }
  else track1

/-- `Play` from `player.go`.  A nil beep `Ctrl` makes the Go field writes
no-ops here (the program never reaches those writes with a nil `Ctrl`). -/
def Play (env : AudioEnv) (p : Player) : StepResult :=
  if p.FilteredTracks.length = 0 then ⟨p, some (gs "no songs found"), 0⟩
  else
    let q := clampIndex p
    if q.State = .Paused ∧ q.Streamer ≠ none ∧ q.LoadedTrack = q.CurrentTrack then
      ⟨{ q with
          Ctrl := q.Ctrl.map (fun c => { c with paused := false }),
          State := .Playing }, none, 0⟩
    else if q.State = .Playing ∧ q.Streamer ≠ none ∧ q.LoadedTrack = q.CurrentTrack then
      ⟨q, none, 0⟩
    else
      let track := q.FilteredTracks.getD q.CurrentTrack.toNat default
      let q := { q with Ctrl := q.Ctrl.map (fun c => { c with paused := true }) }
      match loadTrack env track.Path with
      | .error e => ⟨q, some (gs "can\x27t load song: " ++ e), 1⟩
      | .ok (st, fmt) =>
        ⟨{ q with
            Streamer := some st,
            Format := fmt,
            Ctrl := some { paused := false },
            LoadedTrack := q.CurrentTrack,
            State := .Playing }, none, 1⟩

/-- `Pause` from `player.go`. -/
def Pause (p : Player) : Player :=
  if p.Ctrl = none then p
  else if p.State = .Playing then
    { p with Ctrl := p.Ctrl.map (fun c => { c with paused := true }), State := .Paused }
  else p

/-- `Resume` from `player.go`. -/
def Resume (p : Player) : Player :=
  if p.Ctrl = none then p
  else if p.State = .Paused then
    { p with Ctrl := p.Ctrl.map (fun c => { c with paused := false }), State := .Playing }
  else p

/-- `Stop` from `player.go`. -/
def Stop (p : Player) : Player :=
  { p with
    Ctrl := p.Ctrl.map (fun c => { c with paused := true }),
    State := .Stopped,
    LoadedTrack := -1 }

/-- `NextTrack` from `player.go`. -/
def NextTrack (env : AudioEnv) (p : Player) : StepResult :=
  if p.FilteredTracks.length = 0 then ⟨p, some (gs "no songs"), 0⟩
  else
    let p1 := { p with CurrentTrack := p.CurrentTrack + 1 }
    if p1.CurrentTrack ≥ (p1.FilteredTracks.length : Int) then
      if p1.Repeat then Play env { p1 with CurrentTrack := 0 }
      else ⟨{ p1 with CurrentTrack := (p1.FilteredTracks.length : Int) - 1 },
        some (gs "at the end"), 0⟩
    else Play env p1

/-- `PreviousTrack` from `player.go`. -/
def PreviousTrack (env : AudioEnv) (p : Player) : StepResult :=
  if p.FilteredTracks.length = 0 then ⟨p, some (gs "no songs"), 0⟩
  else
    let p1 := { p with CurrentTrack := p.CurrentTrack - 1 }
    if p1.CurrentTrack < 0 then
      if p1.Repeat then Play env { p1 with CurrentTrack := (p1.FilteredTracks.length : Int) - 1 }
      else ⟨{ p1 with CurrentTrack := 0 }, some (gs "at the beginning"), 0⟩
    else Play env p1

/-- `ToggleRepeat` from `player.go`. -/
def ToggleRepeat (p : Player) : Player := { p with Repeat := !p.Repeat }

/-- `ToggleShuffle` from `player.go`; the flag has no further effect. -/
def ToggleShuffle (p : Player) : Player := { p with Shuffle := !p.Shuffle }

/-- The per-track test inside `Search`: the already-lower-cased query is a
substring of the lower-cased title, artist or album. -/
def trackMatches (q : GoStr) (t : Track) : Bool :=
  goContains (toLowerStr t.Title) q || goContains (toLowerStr t.Artist) q ||
    goContains (toLowerStr t.Album) q

/-- `Search` from `player.go`. -/
def Search (p : Player) (query : GoStr) : Player :=
  if query = [] then { p with SearchQuery := query, FilteredTracks := p.Tracks }
  else
    { p with
      SearchQuery := query,
      FilteredTracks := p.Tracks.filter (trackMatches (toLowerStr query)) }

/-- `GetCurrentTrack` from `player.go` (pointer result as an option). -/
def GetCurrentTrack (p : Player) : Option Track :=
  if p.FilteredTracks.length = 0 ∨ p.CurrentTrack ≥ (p.FilteredTracks.length : Int) then none
  else some (p.FilteredTracks.getD p.CurrentTrack.toNat default)

/-- `GetPosition` from `player.go`. -/
def GetPosition (p : Player) : Nat :=
  match p.Streamer with
  | none => 0
  | some st => sampleRateD p.Format.sampleRate st.position

/-- `GetLength` from `player.go`. -/
def GetLength (p : Player) : Nat :=
  match p.Streamer with
  | none => 0
  | some st => sampleRateD p.Format.sampleRate st.len

/-- The predicate of the search specification: the query is a
case-insensitive substring of the title, the artist or the album. -/
def matchesQuerySpec (q : GoStr) (t : Track) : Bool :=
  goContains (toLowerStr t.Title) (toLowerStr q) ||
    goContains (toLowerStr t.Artist) (toLowerStr q) ||
    goContains (toLowerStr t.Album) (toLowerStr q)

/-- Collaborators that open and decode every file successfully. -/
def envOk : AudioEnv :=
  { osOpen := fun path => .ok path,
    mp3Decode := fun _ => .ok (⟨0, 4410000⟩, ⟨44100⟩),
    wavDecode := fun _ => .ok (⟨0, 4410000⟩, ⟨44100⟩) }

/-- Collaborators whose open succeeds but whose decoders fail with a
message that does not mention the file. -/
def envDecodeFail : AudioEnv :=
  { osOpen := fun path => .ok path,
    mp3Decode := fun _ => .error (gs "mp3: invalid data"),
    wavDecode := fun _ => .error (gs "wav: invalid data") }

/-- A sample track, as the scanner would record it. -/
def trackSong : Track :=
  { Path := gs "music/song.mp3", Title := gs "song", Artist := gs "music", Album := [],
    Duration := 0, Format := gs ".mp3" }

/-- A track titled apple. -/
def trackApple : Track :=
  { Path := gs "music/apple.mp3", Title := gs "apple", Artist := gs "music", Album := [],
    Duration := 0, Format := gs ".mp3" }

/-- A track titled banana. -/
def trackBanana : Track :=
  { Path := gs "music/banana.mp3", Title := gs "banana", Artist := gs "music", Album := [],
    Duration := 0, Format := gs ".mp3" }

/-- A stopped player whose catalog and view hold the given tracks and whose
cursor sits at the given index. -/
def mkIdle (tracks : List Track) (ct : Int) : Player :=
  { MusicDir := gs "music", Tracks := tracks, CurrentTrack := ct, State := .Stopped,
    Repeat := false, Shuffle := false, SearchQuery := [], FilteredTracks := tracks,
    Streamer := none, Ctrl := none, Format := ⟨0⟩, LoadedTrack := -1 }

/-- A player mid-playback of its only track, with the stream three samples
in at a sample rate of two. -/
def playingPlayer : Player :=
  { MusicDir := gs "music", Tracks := [trackSong], CurrentTrack := 0, State := .Playing,
    Repeat := false, Shuffle := false, SearchQuery := [], FilteredTracks := [trackSong],
    Streamer := some ⟨3, 100⟩, Ctrl := some ⟨false⟩, Format := ⟨2⟩, LoadedTrack := 0 }

/-! Auxiliary lemmas about the embedding. -/

theorem clampIndex_State (p : Player) : (clampIndex p).State = p.State := by
  unfold clampIndex; split <;> rfl

theorem clampIndex_Streamer (p : Player) : (clampIndex p).Streamer = p.Streamer := by
  unfold clampIndex; split <;> rfl

theorem clampIndex_LoadedTrack (p : Player) : (clampIndex p).LoadedTrack = p.LoadedTrack := by
  unfold clampIndex; split <;> rfl

theorem clampIndex_Format (p : Player) : (clampIndex p).Format = p.Format := by
  unfold clampIndex; split <;> rfl

theorem clampIndex_Tracks (p : Player) : (clampIndex p).Tracks = p.Tracks := by
  unfold clampIndex; split <;> rfl

theorem clampIndex_FilteredTracks (p : Player) :
    (clampIndex p).FilteredTracks = p.FilteredTracks := by
  unfold clampIndex; split <;> rfl

theorem clampIndex_lt (p : Player) (h : p.FilteredTracks.length ≠ 0) :
    (clampIndex p).CurrentTrack < ((clampIndex p).FilteredTracks.length : Int) := by
  unfold clampIndex
  split
  · show (0 : Int) < (p.FilteredTracks.length : Int)
    exact_mod_cast Nat.pos_of_ne_zero h
  · rename_i hge
    exact not_le.mp hge

theorem Play_Tracks (env : AudioEnv) (p : Player) : (Play env p).player.Tracks = p.Tracks := by
  unfold Play
  split
  · rfl
  · dsimp only
    split
    · exact clampIndex_Tracks p
    · split
      · exact clampIndex_Tracks p
      · split <;> exact clampIndex_Tracks p

theorem NextTrack_Tracks (env : AudioEnv) (p : Player) :
    (NextTrack env p).player.Tracks = p.Tracks := by
  unfold NextTrack
  split
  · rfl
  · dsimp only
    split
    · split
      · exact Play_Tracks env _
      · rfl
    · exact Play_Tracks env _

theorem PreviousTrack_Tracks (env : AudioEnv) (p : Player) :
    (PreviousTrack env p).player.Tracks = p.Tracks := by
  unfold PreviousTrack
  split
  · rfl
  · dsimp only
    split
    · split
      · exact Play_Tracks env _
      · rfl
    · exact Play_Tracks env _

theorem clampIndex_eq_self (p : Player)
    (h : p.CurrentTrack < (p.FilteredTracks.length : Int)) : clampIndex p = p := by
  unfold clampIndex
  exact if_neg (not_le.mpr h)

theorem Play_success_inv (env : AudioEnv) (p p₁ : Player) (n : Nat)
    (h : Play env p = ⟨p₁, none, n⟩) :
    p₁.State = .Playing ∧ p₁.Streamer ≠ none ∧ p₁.LoadedTrack = p₁.CurrentTrack ∧
      p₁.FilteredTracks.length ≠ 0 ∧ p₁.CurrentTrack < (p₁.FilteredTracks.length : Int) := by
  unfold Play at h
  split at h
  · simp at h
  · rename_i hlen
    dsimp only at h
    split at h
    · rename_i hcond
      simp only [StepResult.mk.injEq] at h
      obtain ⟨h1, -, -⟩ := h
      subst h1
      refine ⟨rfl, hcond.2.1, ?_, ?_, ?_⟩
      · show (clampIndex p).LoadedTrack = (clampIndex p).CurrentTrack
        exact hcond.2.2
      · show (clampIndex p).FilteredTracks.length ≠ 0
        rw [clampIndex_FilteredTracks]
        exact hlen
      · show (clampIndex p).CurrentTrack < ((clampIndex p).FilteredTracks.length : Int)
        exact clampIndex_lt p hlen
    · split at h
      · rename_i hcond
        simp only [StepResult.mk.injEq] at h
        obtain ⟨h1, -, -⟩ := h
        subst h1
        refine ⟨hcond.1, hcond.2.1, hcond.2.2, ?_, clampIndex_lt p hlen⟩
        rw [clampIndex_FilteredTracks]
        exact hlen
      · split at h
        · simp at h
        · simp only [StepResult.mk.injEq] at h
          obtain ⟨h1, -, -⟩ := h
          subst h1
          refine ⟨rfl, by simp, rfl, ?_, ?_⟩
          · show (clampIndex p).FilteredTracks.length ≠ 0
            rw [clampIndex_FilteredTracks]
            exact hlen
          · show (clampIndex p).CurrentTrack < ((clampIndex p).FilteredTracks.length : Int)
            exact clampIndex_lt p hlen

theorem Play_of_playing (env : AudioEnv) (p : Player)
    (hLen : p.FilteredTracks.length ≠ 0)
    (hLt : p.CurrentTrack < (p.FilteredTracks.length : Int))
    (hSt : p.State = .Playing) (hStr : p.Streamer ≠ none)
    (hLoad : p.LoadedTrack = p.CurrentTrack) :
    Play env p = ⟨p, none, 0⟩ := by
  unfold Play
  rw [if_neg hLen]
  dsimp only
  rw [clampIndex_eq_self p hLt]
  rw [if_neg (by simp [hSt]), if_pos ⟨hSt, hStr, hLoad⟩]

theorem Play_of_paused (env : AudioEnv) (p : Player)
    (hLen : p.FilteredTracks.length ≠ 0)
    (hLt : p.CurrentTrack < (p.FilteredTracks.length : Int))
    (hSt : p.State = .Paused) (hStr : p.Streamer ≠ none)
    (hLoad : p.LoadedTrack = p.CurrentTrack) :
    Play env p =
      ⟨{ p with
          Ctrl := p.Ctrl.map (fun c => { c with paused := false }),
          State := .Playing }, none, 0⟩ := by
  unfold Play
  rw [if_neg hLen]
  dsimp only
  rw [clampIndex_eq_self p hLt]
  rw [if_pos ⟨hSt, hStr, hLoad⟩]

theorem Play_CurrentTrack (env : AudioEnv) (p : Player) (h0 : p.FilteredTracks.length ≠ 0) :
    (Play env p).player.CurrentTrack = (clampIndex p).CurrentTrack := by
  unfold Play
  rw [if_neg h0]
  dsimp only
  split
  · rfl
  · split
    · rfl
    · split <;> rfl

theorem goContains_nil (s : GoStr) : goContains s [] = true := by
  cases s <;> simp [goContains, List.isEmpty]

theorem splitOn_single (l : GoStr) (h : '/' ∉ l) : l.splitOn '/' = [l] := by
  unfold List.splitOn
  refine List.splitOnP_eq_single (fun x => x == '/') l ?_
  intro x hx
  simp only [beq_iff_eq]
  intro hxe
  exact h (hxe ▸ hx)

theorem splitOn_append (l₁ l₂ : GoStr) (h : '/' ∉ l₁) :
    (l₁ ++ '/' :: l₂).splitOn '/' = l₁ :: l₂.splitOn '/' := by
  unfold List.splitOn
  refine List.splitOnP_first (fun x => x == '/') l₁ ?_ '/' (by simp) l₂
  intro x hx
  simp only [beq_iff_eq]
  intro hxe
  exact h (hxe ▸ hx)

theorem goRel_under (base rest : GoStr) : goRel base (base ++ '/' :: rest) = rest := by
  unfold goRel
  rw [if_neg, if_pos]
  · rw [List.append_cons]
    have hlen : (base ++ ['/']).length = base.length + 1 := by simp
    exact List.drop_left' hlen
  · rw [List.append_cons]
    show (base ++ gs "/").isPrefixOf ((base ++ ['/']) ++ rest) = true
    exact List.isPrefixOf_iff_prefix.mpr (List.prefix_append _ _)
  · intro hEq
    have := congrArg List.length hEq
    simp at this

theorem intercalate_pair (a b : GoStr) : List.intercalate (gs "/") [a, b] = a ++ '/' :: b := by
  simp [List.intercalate, List.intersperse, gs]

theorem filepathDir_two (a b f : GoStr) (ha : '/' ∉ a) (hb : '/' ∉ b) (hf : '/' ∉ f) :
    filepathDir (a ++ '/' :: (b ++ '/' :: f)) = a ++ '/' :: b := by
  unfold filepathDir
  rw [splitOn_append _ _ ha, splitOn_append _ _ hb, splitOn_single _ hf]
  simp [intercalate_pair]

theorem filepathDir_flat (f : GoStr) (hf : '/' ∉ f) : filepathDir f = gs "." := by
  unfold filepathDir
  rw [splitOn_single _ hf]
  simp

theorem extractMetadata_two_levels (r a b f : GoStr) (t : Track)
    (hPath : t.Path = r ++ '/' :: (a ++ '/' :: (b ++ '/' :: f)))
    (ha : '/' ∉ a) (hb : '/' ∉ b) (hf : '/' ∉ f) :
    (extractMetadata r t).Artist = a ∧ (extractMetadata r t).Album = b := by
  dsimp only [extractMetadata]
  rw [hPath, goRel_under, filepathDir_two a b f ha hb hf, splitOn_append _ _ ha,
    splitOn_single _ hb]
  simp

theorem extractMetadata_under_root (r f : GoStr) (t : Track)
    (hPath : t.Path = r ++ '/' :: f) (hf : '/' ∉ f) :
    (extractMetadata r t).Artist = t.Artist ∧ (extractMetadata r t).Album = t.Album := by
  dsimp only [extractMetadata]
  rw [hPath, goRel_under, filepathDir_flat f hf, splitOn_single (gs ".") (by decide)]
  simp

/-! Claim theorems. -/

/-- C1 counterexample: with collaborators whose decoder fails with the
message mp3-invalid-data, Play on a stopped player returns the wrapped
error, and that error does not contain the offending path, contrary to the
claim that the error always contains the path. -/
theorem play_decode_error_lacks_path_counterexample :
    (Play envDecodeFail (mkIdle [trackSong] 0)).err =
        some (gs "can\x27t load song: mp3: invalid data") ∧
      goContains (gs "can\x27t load song: mp3: invalid data") (gs "music/song.mp3") = false := by
  decide

/-- C1 (amended): when `loadTrack` fails during Play, Play returns the
collaborator error wrapped with a load-failure prefix (the path appears
only if the collaborator's own message mentions it), and the Transport
State, the Streamer, the LoadedTrack and the Format are left exactly as
they were: no stream is partially installed. -/
theorem play_load_failure_preserves_state (env : AudioEnv) (p : Player) (e : GoStr)
    (h0 : p.FilteredTracks.length ≠ 0)
    (h1 : ¬((clampIndex p).State = .Paused ∧ (clampIndex p).Streamer ≠ none ∧
      (clampIndex p).LoadedTrack = (clampIndex p).CurrentTrack))
    (h2 : ¬((clampIndex p).State = .Playing ∧ (clampIndex p).Streamer ≠ none ∧
      (clampIndex p).LoadedTrack = (clampIndex p).CurrentTrack))
    (h3 : loadTrack env
      ((clampIndex p).FilteredTracks.getD (clampIndex p).CurrentTrack.toNat default).Path =
      .error e) :
    (Play env p).err = some (gs "can\x27t load song: " ++ e) ∧
      (Play env p).player.State = p.State ∧
      (Play env p).player.Streamer = p.Streamer ∧
      (Play env p).player.LoadedTrack = p.LoadedTrack ∧
      (Play env p).player.Format = p.Format := by
  unfold Play
  rw [if_neg h0]
  dsimp only
  rw [if_neg h1, if_neg h2, h3]
  exact ⟨rfl, clampIndex_State p, clampIndex_Streamer p, clampIndex_LoadedTrack p,
    clampIndex_Format p⟩

/-- C1 witness: the amended theorem applied to a concrete stopped player
and concretely failing collaborators. -/
theorem play_load_failure_preserves_state_witness :
    (Play envDecodeFail (mkIdle [trackSong] 0)).err =
        some (gs "can\x27t load song: " ++ gs "mp3: invalid data") ∧
      (Play envDecodeFail (mkIdle [trackSong] 0)).player.State = (mkIdle [trackSong] 0).State ∧
      (Play envDecodeFail (mkIdle [trackSong] 0)).player.Streamer =
        (mkIdle [trackSong] 0).Streamer ∧
      (Play envDecodeFail (mkIdle [trackSong] 0)).player.LoadedTrack =
        (mkIdle [trackSong] 0).LoadedTrack ∧
      (Play envDecodeFail (mkIdle [trackSong] 0)).player.Format =
        (mkIdle [trackSong] 0).Format :=
  play_load_failure_preserves_state envDecodeFail (mkIdle [trackSong] 0)
    (gs "mp3: invalid data") (by decide) (by decide) (by decide) rfl

/-- C2 counterexample: with a two-track catalog and the cursor on index 1,
searching for apple shrinks the view to one track yet leaves the Current
Index at 1, so it is neither clamped into range nor reset to 0. -/
theorem search_does_not_clamp_counterexample :
    (Search (mkIdle [trackApple, trackBanana] 1) (gs "apple")).FilteredTracks.length = 1 ∧
      (Search (mkIdle [trackApple, trackBanana] 1) (gs "apple")).CurrentTrack = 1 := by
  decide

/-- C2 (amended): Search never touches the Current Index; replacing the
Filtered View performs no clamping or reset at search time. -/
theorem search_leaves_current_index (p : Player) (q : GoStr) :
    (Search p q).CurrentTrack = p.CurrentTrack := by
  unfold Search
  split <;> rfl

/-- C3 counterexample: a non-empty view with the Current Index out of range
does not make Play refuse: it reports no error, decodes once, installs the
stream, enters Playing, and plays the first track of the view. -/
theorem play_out_of_range_plays_first_counterexample :
    (Play envOk (mkIdle [trackApple] 1)).err = none ∧
      (Play envOk (mkIdle [trackApple] 1)).player.State = .Playing ∧
      (Play envOk (mkIdle [trackApple] 1)).player.Streamer = some ⟨0, 4410000⟩ ∧
      (Play envOk (mkIdle [trackApple] 1)).decodeCalls = 1 ∧
      (Play envOk (mkIdle [trackApple] 1)).player.CurrentTrack = 0 := by
  decide

/-- C3 (amended): with a non-empty view and an out-of-range Current Index,
Play does not crash and does not refuse: it behaves exactly as if the
Current Index were 0, and the resulting Current Index is 0. -/
theorem play_out_of_range_clamps (env : AudioEnv) (p : Player)
    (h0 : p.FilteredTracks.length ≠ 0)
    (h : p.CurrentTrack ≥ (p.FilteredTracks.length : Int)) :
    Play env p = Play env { p with CurrentTrack := 0 } ∧
      (Play env p).player.CurrentTrack = 0 := by
  have hc : clampIndex p = { p with CurrentTrack := 0 } := by
    unfold clampIndex
    rw [if_pos h]
  have hlt : ({ p with CurrentTrack := 0 } : Player).CurrentTrack <
      (({ p with CurrentTrack := 0 } : Player).FilteredTracks.length : Int) := by
    show (0 : Int) < (p.FilteredTracks.length : Int)
    exact_mod_cast Nat.pos_of_ne_zero h0
  have hc2 : clampIndex { p with CurrentTrack := 0 } = { p with CurrentTrack := 0 } :=
    clampIndex_eq_self _ hlt
  constructor
  · unfold Play
    have h0' : ({ p with CurrentTrack := 0 } : Player).FilteredTracks.length ≠ 0 := h0
    rw [if_neg h0, if_neg h0']
    dsimp only
    rw [hc, hc2]
  · rw [Play_CurrentTrack env p h0, hc]

/-- C3 witness: the amended theorem applied to a one-track player whose
cursor sits at the out-of-range index 1. -/
theorem play_out_of_range_clamps_witness :
    Play envOk (mkIdle [trackApple] 1) =
        Play envOk { mkIdle [trackApple] 1 with CurrentTrack := 0 } ∧
      (Play envOk (mkIdle [trackApple] 1)).player.CurrentTrack = 0 :=
  play_out_of_range_clamps envOk (mkIdle [trackApple] 1) (by decide) (by decide)

/-- C4 counterexample: stopping a player mid-playback keeps the loaded
streamer installed, and the position query still reports the stream
position (here one and a half seconds, in nanoseconds) instead of zero. -/
theorem stop_retains_stream_counterexample :
    (Stop playingPlayer).Streamer = some ⟨3, 100⟩ ∧
      GetPosition (Stop playingPlayer) = 1500000000 ∧
      GetPosition (Stop playingPlayer) ≠ 0 ∧
      GetLength (Stop playingPlayer) ≠ 0 := by
  decide

/-- C4 (amended): Stop pauses the output through the ctrl flag, sets the
Transport State to Stopped and LoadedTrack to the -1 sentinel, but retains
the Streamer and Format, so GetPosition and GetLength keep reporting the
retained stream rather than zero. -/
theorem stop_sets_stopped_retains_stream (p : Player) :
    (Stop p).State = .Stopped ∧ (Stop p).LoadedTrack = -1 ∧
      (Stop p).Streamer = p.Streamer ∧ (Stop p).Format = p.Format ∧
      (Stop p).Ctrl = p.Ctrl.map (fun c => { c with paused := true }) ∧
      GetPosition (Stop p) = GetPosition p ∧ GetLength (Stop p) = GetLength p :=
  ⟨rfl, rfl, rfl, rfl, rfl, rfl, rfl⟩

/-- C5: at the last index of a non-empty view with Repeat off, NextTrack
returns the end-of-playlist error, leaves the whole player unchanged (in
particular the Current Index stays at the last index and the loaded stream
and Transport State are untouched), and issues no decode call. -/
theorem next_at_end_no_repeat (env : AudioEnv) (p : Player)
    (h0 : p.FilteredTracks.length ≠ 0) (hr : p.Repeat = false)
    (hlast : p.CurrentTrack = (p.FilteredTracks.length : Int) - 1) :
    NextTrack env p = ⟨p, some (gs "at the end"), 0⟩ := by
  unfold NextTrack
  rw [if_neg h0]
  dsimp only
  have hc : ({ p with CurrentTrack := p.CurrentTrack + 1 } : Player).CurrentTrack ≥
      (({ p with CurrentTrack := p.CurrentTrack + 1 } : Player).FilteredTracks.length : Int) := by
    show p.CurrentTrack + 1 ≥ (p.FilteredTracks.length : Int)
    omega
  have hrn : ¬(({ p with CurrentTrack := p.CurrentTrack + 1 } : Player).Repeat = true) := by
    show ¬(p.Repeat = true)
    simp [hr]
  rw [if_pos hc, if_neg hrn, ← hlast]

/-- C5 witness: the theorem applied to a two-track player whose cursor sits
on the final track. -/
theorem next_at_end_no_repeat_witness :
    NextTrack envOk (mkIdle [trackApple, trackBanana] 1) =
      ⟨mkIdle [trackApple, trackBanana] 1, some (gs "at the end"), 0⟩ :=
  next_at_end_no_repeat envOk (mkIdle [trackApple, trackBanana] 1)
    (by decide) (by decide) (by decide)

/-- C6: a track is in the view produced by Search exactly when it is a
catalog track for which the query is a case-insensitive substring of the
title, the artist or the album; every excluded catalog track fails that
predicate on all three fields. -/
theorem search_membership (p : Player) (q : GoStr) (t : Track) :
    t ∈ (Search p q).FilteredTracks ↔ t ∈ p.Tracks ∧ matchesQuerySpec q t = true := by
  unfold Search
  by_cases hq : q = []
  · subst hq
    rw [if_pos rfl]
    have hm : matchesQuerySpec [] t = true := by
      unfold matchesQuerySpec
      simp [toLowerStr, goContains_nil]
    show t ∈ p.Tracks ↔ _
    simp [hm]
  · rw [if_neg hq]
    show t ∈ p.Tracks.filter (trackMatches (toLowerStr q)) ↔ _
    rw [List.mem_filter]
    exact Iff.rfl

/-- C7: a scanned file two directory levels below the scan root gets the
first segment as its artist and the second as its album, and a file
directly under the root keeps the empty artist and album. -/
theorem extract_metadata_positional (r a b f ti fm : GoStr) (d : Nat)
    (ha : '/' ∉ a) (hb : '/' ∉ b) (hf : '/' ∉ f) :
    ((extractMetadata r
        { Path := r ++ '/' :: (a ++ '/' :: (b ++ '/' :: f)), Title := ti,
          Artist := [], Album := [], Duration := d, Format := fm }).Artist = a ∧
      (extractMetadata r
        { Path := r ++ '/' :: (a ++ '/' :: (b ++ '/' :: f)), Title := ti,
          Artist := [], Album := [], Duration := d, Format := fm }).Album = b) ∧
    ((extractMetadata r
        { Path := r ++ '/' :: f, Title := ti, Artist := [], Album := [],
          Duration := d, Format := fm }).Artist = [] ∧
      (extractMetadata r
        { Path := r ++ '/' :: f, Title := ti, Artist := [], Album := [],
          Duration := d, Format := fm }).Album = []) := by
  refine ⟨extractMetadata_two_levels r a b f _ rfl ha hb hf, ?_⟩
  exact extractMetadata_under_root r f
    { Path := r ++ '/' :: f, Title := ti, Artist := [], Album := [],
      Duration := d, Format := fm } rfl hf

/-- C7 witness: the spec scenario, with RootArtistA and AlbumX two levels
below the root. -/
theorem extract_metadata_positional_witness :
    (extractMetadata (gs "root")
        { Path := gs "root" ++ '/' :: (gs "RootArtistA" ++ '/' ::
            (gs "AlbumX" ++ '/' :: gs "Song1.mp3")),
          Title := [], Artist := [], Album := [], Duration := 0,
          Format := gs ".mp3" }).Artist = gs "RootArtistA" ∧
    (extractMetadata (gs "root")
        { Path := gs "root" ++ '/' :: gs "loose.mp3",
          Title := [], Artist := [], Album := [], Duration := 0,
          Format := gs ".mp3" }).Artist = [] :=
  ⟨(extract_metadata_positional (gs "root") (gs "RootArtistA") (gs "AlbumX") (gs "Song1.mp3")
      [] (gs ".mp3") 0 (by decide) (by decide) (by decide)).1.1,
    (extract_metadata_positional (gs "root") (gs "RootArtistA") (gs "AlbumX") (gs "loose.mp3")
      [] (gs ".mp3") 0 (by decide) (by decide) (by decide)).2.1⟩

/-- C8: after any successful Play, a second Play on the unchanged player is
a pure no-op with zero decode calls; if a Pause intervenes, the second Play
only clears the ctrl pause flag and returns to Playing, again with zero
decode calls; in both cases the loaded stream is unchanged. -/
theorem play_twice_no_redecode (env env' : AudioEnv) (p p₁ : Player) (n : Nat)
    (h : Play env p = ⟨p₁, none, n⟩) :
    Play env' p₁ = ⟨p₁, none, 0⟩ ∧
      Play env' (Pause p₁) =
        ⟨{ Pause p₁ with
            Ctrl := (Pause p₁).Ctrl.map (fun c => { c with paused := false }),
            State := .Playing }, none, 0⟩ ∧
      (Play env' (Pause p₁)).player.Streamer = p₁.Streamer := by
  obtain ⟨hSt, hStr, hLoad, hLen, hLt⟩ := Play_success_inv env p p₁ n h
  have h1 : Play env' p₁ = ⟨p₁, none, 0⟩ := Play_of_playing env' p₁ hLen hLt hSt hStr hLoad
  have hEta : ∀ pp : Player, pp.Ctrl = none → pp.State = .Playing →
      ({ pp with
          Ctrl := pp.Ctrl.map (fun c => { c with paused := false }),
          State := .Playing } : Player) = pp := by
    intro pp hcn hst
    cases pp
    simp_all
  by_cases hc : p₁.Ctrl = none
  · have hPause : Pause p₁ = p₁ := by
      unfold Pause
      rw [if_pos hc]
    refine ⟨h1, ?_, ?_⟩
    · rw [hPause, h1, hEta p₁ hc hSt]
    · rw [hPause, h1]
  · have hPause : Pause p₁ =
        { p₁ with
          Ctrl := p₁.Ctrl.map (fun c => { c with paused := true }),
          State := .Paused } := by
      unfold Pause
      rw [if_neg hc, if_pos hSt]
    have h2 : Play env' (Pause p₁) =
        ⟨{ Pause p₁ with
            Ctrl := (Pause p₁).Ctrl.map (fun c => { c with paused := false }),
            State := .Playing }, none, 0⟩ := by
      refine Play_of_paused env' (Pause p₁) ?_ ?_ ?_ ?_ ?_
      · rw [hPause]
        exact hLen
      · rw [hPause]
        exact hLt
      · rw [hPause]
      · rw [hPause]
        exact hStr
      · rw [hPause]
        exact hLoad
    refine ⟨h1, h2, ?_⟩
    rw [h2, hPause]

/-- C8 witness: the theorem applied to a player already playing its single
track, where the first Play is the no-op branch. -/
theorem play_twice_no_redecode_witness :
    Play envOk playingPlayer = ⟨playingPlayer, none, 0⟩ ∧
      Play envOk (Pause playingPlayer) =
        ⟨{ Pause playingPlayer with
            Ctrl := (Pause playingPlayer).Ctrl.map (fun c => { c with paused := false }),
            State := .Playing }, none, 0⟩ ∧
      (Play envOk (Pause playingPlayer)).player.Streamer = playingPlayer.Streamer :=
  play_twice_no_redecode envOk envOk playingPlayer playingPlayer 0 (by decide)

/-- C9: searching with the empty query makes the Filtered View the full
catalog itself, same elements in the same order. -/
theorem search_empty_query_full_catalog (p : Player) :
    (Search p (gs "")).FilteredTracks = p.Tracks := rfl

/-- C10: every public operation leaves the catalog unchanged, and the view
Search builds is a subsequence of the catalog (the full catalog itself for
the empty query, a filtered copy otherwise). -/
theorem operations_preserve_catalog (env : AudioEnv) (p : Player) (q : GoStr) :
    (Play env p).player.Tracks = p.Tracks ∧
      (Pause p).Tracks = p.Tracks ∧
      (Resume p).Tracks = p.Tracks ∧
      (Stop p).Tracks = p.Tracks ∧
      (NextTrack env p).player.Tracks = p.Tracks ∧
      (PreviousTrack env p).player.Tracks = p.Tracks ∧
      (ToggleRepeat p).Tracks = p.Tracks ∧
      (ToggleShuffle p).Tracks = p.Tracks ∧
      (Search p q).Tracks = p.Tracks ∧
      List.Sublist (Search p q).FilteredTracks p.Tracks := by
  refine ⟨Play_Tracks env p, ?_, ?_, rfl, NextTrack_Tracks env p, PreviousTrack_Tracks env p,
    rfl, rfl, ?_, ?_⟩
  · unfold Pause
    split
    · rfl
    · split <;> rfl
  · unfold Resume
    split
    · rfl
    · split <;> rfl
  · unfold Search
    split <;> rfl
  · unfold Search
    split
    · exact List.Sublist.refl _
    · exact List.filter_sublist _
